import Mathlib

set_option maxHeartbeats 1000000

/-!
Shallow embedding of `src/worker.ts` (Donorbox webhook → Moloni invoice worker).

JSON values are modelled exactly as the JavaScript values reachable from
`JSON.parse`; numbers are modelled as exact rationals (the binary64 rounding of
decimal literals, and the overflow of enormous literals to Infinity, are not
modelled — no claim depends on them).  JavaScript `undefined` is modelled as
`Option.none` wherever a value may be absent.  Property accesses that can throw
a TypeError in JavaScript (reading a field of `null`/`undefined` without the
optional-chaining operator) are modelled in the `Except String` monad.
-/

/-- A JSON value as produced by JSON.parse.  An object is its final list of
fields (JSON.parse resolves duplicate keys before this value exists). -/
inductive Json where
  | null : Json
  | bool (b : Bool) : Json
  | num (q : ℚ) : Json
  | str (s : String) : Json
  | arr (elems : List Json) : Json
  | obj (fields : List (String × Json)) : Json

/-- A JavaScript number: NaN, a signed infinity, or a finite value. -/
inductive JsNum where
  | nan : JsNum
  | inf (pos : Bool) : JsNum
  | val (q : ℚ) : JsNum
deriving DecidableEq

/-- Falsiness of a JavaScript number: `0`, `-0` and `NaN` are falsy. -/
def JsNum.falsy : JsNum → Bool
  | .nan => true
  | .inf _ => false
  | .val q => q = 0

/-- JavaScript truthiness of a defined JSON value (`NaN` cannot occur inside a
parsed JSON tree, so `num` is truthy exactly when nonzero). -/
def truthy : Json → Bool
  | .null => false
  | .bool b => b
  | .num q => q ≠ 0
  | .str s => s ≠ ""
  | .arr _ => true
  | .obj _ => true

/-- Truthiness of a possibly-undefined value (`undefined` is falsy). -/
def truthyOpt : Option Json → Bool
  | none => false
  | some v => truthy v

/-- Property read on a defined, non-null value: objects look their key up,
every other value (primitives, arrays) yields `undefined` for a non-index
key such as the field names this worker reads. -/
def jsField (v : Json) (k : String) : Option Json :=
  match v with
  | .obj fields => fields.lookup k
  | _ => none

/-- Optional-chaining property read `v?.k` on a defined value: `null` yields
`undefined` instead of throwing. -/
def jsFieldQ (v : Json) (k : String) : Option Json :=
  match v with
  | .null => none
  | _ => jsField v k

/-- Plain property read `v.k` on a defined value, as an effectful operation:
reading a property of `null` throws a TypeError. -/
def jsFieldE (v : Json) (k : String) : Except String (Option Json) :=
  match v with
  | .null => .error ("TypeError: cannot read properties of null (reading " ++ k ++ ")")
  | _ => .ok (jsField v k)

/-- Value of a JavaScript `x1 || x2 || ... || dflt` chain over possibly
undefined operands whose last operand `dflt` is a truthy literal: the first
truthy operand, else the default. -/
def firstTruthyD (xs : List (Option Json)) (dflt : Json) : Json :=
  match xs with
  | [] => dflt
  | x :: rest =>
    match x with
    | some v => if truthy v then v else firstTruthyD rest dflt
    | none => firstTruthyD rest dflt

/-- Value of a JavaScript `x1 || x2 || ... || undefined` chain: the first
truthy operand, else `undefined` (the worker only tests the result for
truthiness, so collapsing the final falsy operand to `undefined` is exact
up to truthiness and is only used where the code does that test). -/
def firstTruthyO (xs : List (Option Json)) : Option Json :=
  match xs with
  | [] => none
  | x :: rest => if truthyOpt x then x else firstTruthyO rest

/-- JavaScript whitespace for `String.prototype.trim` and `Number(string)`:
the ASCII whitespace characters together with NBSP, BOM and the Unicode line
separators (the common members of WhiteSpace ∪ LineTerminator). -/
def isJsWs (c : Char) : Bool :=
  c = ' ' || c = '\t' || c = '\n' || c = '\r' ||
  c = Char.ofNat 11 || c = Char.ofNat 12 || c = Char.ofNat 160 ||
  c = Char.ofNat 65279 || c = Char.ofNat 8232 || c = Char.ofNat 8233

/-- Character-list form of `String.prototype.trim`: drop JS whitespace from
both ends. -/
def jsTrimData (l : List Char) : List Char :=
  ((l.dropWhile isJsWs).reverse.dropWhile isJsWs).reverse

/-- JavaScript `s.trim()`. -/
def jsTrim (s : String) : String :=
  ⟨jsTrimData s.data⟩

/-- Decimal digits of a natural number, least significant first.  The fuel
argument of the worker (`n` itself bounds the digit count) keeps the
recursion structural so the kernel can evaluate it. -/
def natDigitsRevGo (fuel n : Nat) : List Char :=
  match fuel with
  | 0 => [Char.ofNat (48 + n % 10)]
  | fuel + 1 =>
    if n < 10 then [Char.ofNat (48 + n)]
    else Char.ofNat (48 + n % 10) :: natDigitsRevGo fuel (n / 10)

/-- Decimal digits of a natural number, least significant first. -/
def natDigitsRev (n : Nat) : List Char :=
  natDigitsRevGo n n

/-- Decimal rendering of a natural number, as JavaScript renders integers. -/
def natDigits (n : Nat) : List Char :=
  (natDigitsRev n).reverse

/-- Fractional digits of a rational in `[0,1)`, up to `fuel` places.  A parsed
JSON number always has a terminating decimal expansion, which this renders
exactly; 17 places bound the output like the double shortest-representation
printing JavaScript uses. -/
def fracDigits (q : ℚ) (fuel : Nat) : List Char :=
  match fuel with
  | 0 => []
  | fuel + 1 =>
    if q = 0 then []
    else
      let q10 := q * 10
      Char.ofNat (48 + q10.floor.toNat % 10) :: fracDigits (q10 - q10.floor) fuel

/-- JavaScript decimal rendering of a finite number (plain notation; the
exponential notation JavaScript switches to beyond 1e21 / below 1e-6 is not
modelled — no claim evaluates it there). -/
def qToString (q : ℚ) : String :=
  let sign : List Char := if q < 0 then ['-'] else []
  let a := |q|
  let ip := natDigits a.floor.toNat
  let fp := a - a.floor
  ⟨sign ++ ip ++ (if fp = 0 then [] else '.' :: fracDigits fp 17)⟩

mutual

/-- JavaScript `String(v)` coercion of a defined JSON value. -/
def jsToString : Json → String
  | .null => "null"
  | .bool true => "true"
  | .bool false => "false"
  | .num q => qToString q
  | .str s => s
  | .arr elems => String.intercalate "," (jsToStringList elems)
  | .obj _ => "[object Object]"

/-- Elementwise stringification used by `Array.prototype.join`: `null`
(and `undefined`, absent from parsed JSON) becomes the empty string. -/
def jsToStringList : List Json → List String
  | [] => []
  | .null :: rest => "" :: jsToStringList rest
  | x :: rest => jsToString x :: jsToStringList rest

end

/-- JavaScript `s.toUpperCase()` (ASCII model). -/
def jsToUpper (s : String) : String :=
  ⟨s.data.map Char.toUpper⟩

/-- Value of a run of decimal digit characters. -/
def digitsVal (ds : List Char) : Nat :=
  ds.foldl (fun acc c => acc * 10 + (c.toNat - 48)) 0

/-- Optional exponent suffix of a decimal literal: empty means exponent 0; an
`e`/`E` followed by an optional sign and a nonempty run of digits means that
exponent; anything else is a syntax error. -/
def parseExpSuffix (t : List Char) : Option Int :=
  match t with
  | [] => some 0
  | c :: rest =>
    if c = 'e' || c = 'E' then
      match rest with
      | '+' :: ds => if ds ≠ [] && ds.all Char.isDigit then some (digitsVal ds) else none
      | '-' :: ds => if ds ≠ [] && ds.all Char.isDigit then some (-(digitsVal ds : Int)) else none
      | ds => if ds ≠ [] && ds.all Char.isDigit then some (digitsVal ds) else none
    else none

/-- Scale a rational by a power of ten. -/
def scalePow10 (q : ℚ) (e : Int) : ℚ :=
  if 0 ≤ e then q * 10 ^ e.toNat else q / 10 ^ (-e).toNat

/-- Parse a StrUnsignedDecimalLiteral (`Infinity`, `D+[.D*][exp]` or
`.D+[exp]`); malformed input is NaN. -/
def parseUnsignedDec (t : List Char) (sign : ℚ) : JsNum :=
  if t = "Infinity".data then .inf (sign > 0)
  else
    let ds := t.takeWhile Char.isDigit
    let r1 := t.dropWhile Char.isDigit
    match r1 with
    | '.' :: r2 =>
      let fs := r2.takeWhile Char.isDigit
      let r3 := r2.dropWhile Char.isDigit
      if ds = [] && fs = [] then .nan
      else
        match parseExpSuffix r3 with
        | none => .nan
        | some e => .val (sign * scalePow10 ((digitsVal ds : ℚ) + (digitsVal fs : ℚ) / 10 ^ fs.length) e)
    | _ =>
      if ds = [] then .nan
      else
        match parseExpSuffix r1 with
        | none => .nan
        | some e => .val (sign * scalePow10 (digitsVal ds) e)

/-- Digit value in a given radix, if valid. -/
def radixDigit (radix : Nat) (c : Char) : Option Nat :=
  let v :=
    if c.isDigit then some (c.toNat - 48)
    else if 'a' ≤ c && c ≤ 'f' then some (c.toNat - 87)
    else if 'A' ≤ c && c ≤ 'F' then some (c.toNat - 55)
    else none
  match v with
  | some n => if n < radix then some n else none
  | none => none

/-- Parse a nonempty run of digits in the given radix; any invalid character
makes the whole literal NaN. -/
def parseRadixDigits (radix : Nat) (t : List Char) : JsNum :=
  if t = [] then .nan
  else
    let step : Option Nat → Char → Option Nat := fun acc c =>
      match acc, radixDigit radix c with
      | some a, some d => some (a * radix + d)
      | _, _ => none
    match t.foldl step (some 0) with
    | some n => .val n
    | none => .nan

/-- JavaScript `Number(string)`: trimmed empty input is 0; a `0x`/`0o`/`0b`
literal (unsigned only) uses that radix; otherwise an optionally signed
decimal literal; anything else is NaN. -/
def jsStringToNumber (s : String) : JsNum :=
  let t := jsTrimData s.data
  match t with
  | [] => .val 0
  | '+' :: rest => parseUnsignedDec rest 1
  | '-' :: rest => parseUnsignedDec rest (-1)
  | '0' :: c :: rest =>
    if c = 'x' || c = 'X' then parseRadixDigits 16 rest
    else if c = 'o' || c = 'O' then parseRadixDigits 8 rest
    else if c = 'b' || c = 'B' then parseRadixDigits 2 rest
    else parseUnsignedDec t 1
  | _ => parseUnsignedDec t 1

/-- JavaScript `Number(v)` coercion of a defined JSON value.  Arrays and plain
objects go through ToPrimitive, which is their `String(v)` form. -/
def jsToNumber : Json → JsNum
  | .null => .val 0
  | .bool true => .val 1
  | .bool false => .val 0
  | .num q => .val q
  | .str s => jsStringToNumber s
  | .arr elems => jsStringToNumber (jsToString (.arr elems))
  | .obj fields => jsStringToNumber (jsToString (.obj fields))

/-!
Payload mapper (`mapDonorboxPayload`, worker.ts lines 137-163).
-/

/-- A normalized donation, the result shape of `mapDonorboxPayload`.  Fields
keep the dynamic JavaScript values the code actually stores (the TypeScript
casts are erased at runtime). -/
structure Donation where
  externalId : Option Json
  name : Json
  email : Option Json
  amount : JsNum
  currency : String
  campaign : Json
  raw : Json

/-- Donation record resolution (line 138):
`(payload?.data) || (payload?.donation) || payload || {}`.  The result is
always truthy, so later plain property reads on it cannot throw. -/
def resolvedData (payload : Json) : Json :=
  firstTruthyD [jsFieldQ payload "data", jsFieldQ payload "donation", some payload] (.obj [])

/-- Donor record resolution (line 139):
`(data.donor) || (data.donor_info) || {}`. -/
def resolvedDonor (data : Json) : Json :=
  firstTruthyD [jsField data "donor", jsField data "donor_info"] (.obj [])

/-- Concatenated fallback name (line 143):
`[donor.first_name, donor.last_name].filter(Boolean).join(" ").trim()` —
the parts are filtered by truthiness, stringified and joined with one space,
and only the whole join is trimmed. -/
def joinedFirstLast (donor : Json) : String :=
  jsTrim (String.intercalate " "
    ((([jsField donor "first_name", jsField donor "last_name"].filterMap id).filter truthy).map jsToString))

/-- Name resolution (lines 141-144):
`donor.name || joined || "Donorbox Donor"`. -/
def mapName (donor : Json) : Json :=
  firstTruthyD [jsField donor "name", some (.str (joinedFirstLast donor))] (.str "Donorbox Donor")

/-- Email resolution (line 145): `donor.email || data.email || undefined`. -/
def mapEmail (data donor : Json) : Option Json :=
  firstTruthyO [jsField donor "email", jsField data "email"]

/-- Amount field resolution (line 146):
`data.amount ?? data.donation_amount ?? data.total ?? 0` — nullish
coalescing skips only `undefined` and `null`. -/
def resolvedAmountField (data : Json) : Json :=
  match jsField data "amount" with
  | some v =>
    match v with
    | .null => resolvedAmountTail data
    | w => w
  | none => resolvedAmountTail data
where
  /-- Tail of the nullish chain after a nullish `amount`. -/
  resolvedAmountTail (data : Json) : Json :=
    match jsField data "donation_amount" with
    | some v =>
      match v with
      | .null =>
        match jsField data "total" with
        | some w =>
          match w with
          | .null => .num 0
          | u => u
        | none => .num 0
      | w => w
    | none =>
      match jsField data "total" with
      | some w =>
        match w with
        | .null => .num 0
        | u => u
      | none => .num 0

/-- Currency value resolution (line 147, inside `String(...)`):
`data.currency || data.currency_code || "EUR"`. -/
def resolvedCurrencyVal (data : Json) : Json :=
  firstTruthyD [jsField data "currency", jsField data "currency_code"] (.str "EUR")

/-- Currency mapping (line 147): `String(chain).toUpperCase()`. -/
def mapCurrency (data : Json) : String :=
  jsToUpper (jsToString (resolvedCurrencyVal data))

/-- Campaign resolution (lines 148-152):
`data.campaign_name || data.campaign_title || data.designation || "Donation"`. -/
def mapCampaign (data : Json) : Json :=
  firstTruthyD
    [jsField data "campaign_name", jsField data "campaign_title", jsField data "designation"]
    (.str "Donation")

/-- External id resolution (line 155):
`(data.id) || payload.id || payload.event_id` — the two reads on `payload`
have no optional chaining, so a null payload throws here. -/
def mapExternalId (data payload : Json) : Except String (Option Json) :=
  if truthyOpt (jsField data "id") then .ok (jsField data "id")
  else
    match jsFieldE payload "id" with
    | .error e => .error e
    | .ok pId =>
      if truthyOpt pId then .ok pId
      else
        match jsFieldE payload "event_id" with
        | .error e => .error e
        | .ok pEv => .ok pEv

/-- The payload mapper (worker.ts lines 137-163).  The only property reads
that can throw are the ones on `payload` in the externalId chain; every other
read is on the `|| {}`-guarded `data`/`donor` values, which are truthy. -/
def mapDonorboxPayload (payload : Json) : Except String Donation :=
  let data := resolvedData payload
  let donor := resolvedDonor data
  match mapExternalId data payload with
  | .error e => .error e
  | .ok externalId =>
    .ok
      { externalId := externalId
        name := mapName donor
        email := mapEmail data donor
        amount := jsToNumber (resolvedAmountField data)
        currency := mapCurrency data
        campaign := mapCampaign data
        raw := data }

/-!
Signature verifier (`validateDonorboxSignature`, `timingSafeEqual`,
`bufferToHex`, worker.ts lines 108-135).  The WebCrypto HMAC primitive is a
parameter (a function from secret and body to an output byte list); the code
around it is embedded exactly.
-/

/-- A lowercase hexadecimal digit character. -/
def hexDigitChar (n : Nat) : Char :=
  if n < 10 then Char.ofNat (48 + n) else Char.ofNat (87 + n)

/-- Hex digits of a natural number, least significant first, lowercase, as
`Number.prototype.toString(16)` renders naturals (fuelled to stay
structural). -/
def natHexRevGo (fuel n : Nat) : List Char :=
  match fuel with
  | 0 => [hexDigitChar (n % 16)]
  | fuel + 1 =>
    if n < 16 then [hexDigitChar n]
    else hexDigitChar (n % 16) :: natHexRevGo fuel (n / 16)

/-- Hex digits of a natural number, least significant first, lowercase. -/
def natHexRev (n : Nat) : List Char :=
  natHexRevGo n n

/-- JavaScript `byte.toString(16).padStart(2, "0")`. -/
def byteToHex (b : Nat) : List Char :=
  let ds := (natHexRev b).reverse
  if ds.length = 1 then '0' :: ds else ds

/-- `bufferToHex` (lines 132-135): lowercase hex of a byte buffer. -/
def bufferToHex (bytes : List Nat) : String :=
  ⟨((bytes.map byteToHex).flatten)⟩

/-- Folded bitwise-or of per-position char-code xors, the accumulator loop of
`timingSafeEqual` (lines 125-128). -/
def xorFold (a b : List Char) : Nat :=
  (a.zip b).foldl (fun out p => out ||| (p.1.toNat ^^^ p.2.toNat)) 0

/-- `timingSafeEqual` (lines 123-130): equal lengths and a zero or-of-xors. -/
def timingSafeEqual (a b : String) : Bool :=
  if a.data.length ≠ b.data.length then false
  else xorFold a.data b.data == 0

/-- Splitting a character list at every `=`, the full split underlying the
JavaScript `headerValue.split("=", 2)` (the limit only truncates the result
list, so the second element is the run between the first and second `=`). -/
def splitOnEq (l : List Char) : List (List Char) :=
  match l with
  | [] => [[]]
  | c :: rest =>
    if c = '=' then [] :: splitOnEq rest
    else
      match splitOnEq rest with
      | [] => [[c]]
      | seg :: segs => (c :: seg) :: segs

/-- Header parsing (lines 111-113): `[maybeAlgo, maybeSig]` is
`headerValue.split("=", 2)` when the value contains `=`, else
`["sha256", headerValue]`; the algorithm is SHA-1 exactly when the lowercased
token is `sha1`, and the provided digest is the trimmed second part. -/
def resolveSigParts (hv : String) : String × String :=
  let parts := if hv.data.contains '=' then splitOnEq hv.data else ["sha256".data, hv.data]
  let maybeAlgo : List Char := parts.headD []
  let maybeSig : List Char := (parts.drop 1).headD []
  let algo := if maybeAlgo.map Char.toLower = "sha1".data then "SHA-1" else "SHA-256"
  (algo, ⟨jsTrimData maybeSig⟩)

/-- `validateDonorboxSignature` (lines 108-121), with the two HMAC primitives
as parameters.  A missing or empty header fails (line 109: `!headerValue`). -/
def validateDonorboxSignature (hmacSha1 hmacSha256 : String → String → List Nat)
    (bodyText : String) (headerValue : Option String) (secret : String) : Bool :=
  match headerValue with
  | none => false
  | some hv =>
    if hv.data.isEmpty then false
    else
      let parts := resolveSigParts hv
      let expectedHex :=
        bufferToHex (if parts.1 = "SHA-1" then hmacSha1 secret bodyText else hmacSha256 secret bodyText)
      timingSafeEqual expectedHex parts.2

/-!
Moloni client (`MoloniClient`, worker.ts lines 205-290).  Network calls are
parameters: the token-refresh exchange outcome and the invoice POST outcome
are inputs, and `Date.now()` readings are explicit time arguments.
-/

/-- The mutable token cache of one `MoloniClient` instance (lines 207-213);
a fresh instance has no token and `tokenExpiresAt = 0`. -/
structure MoloniState where
  cachedToken : Option String
  tokenExpiresAt : ℚ
deriving DecidableEq

/-- Parsed body of a successful token-refresh response, with the shape the
code asserts (line 284): an access token and an optional numeric lifetime. -/
structure TokenJson where
  access_token : String
  expires_in : Option ℚ
deriving DecidableEq

/-- Lifetime taken from the response (line 285): `Number(json.expires_in || 900)`
— the 900 default also applies to a reported falsy (zero) lifetime. -/
def tokenLifetime (expiresIn : Option ℚ) : ℚ :=
  match expiresIn with
  | some q => if q = 0 then 900 else q
  | none => 900

/-- Truthiness of the cached token slot (line 262: `this.cachedToken && ...`). -/
def cacheTruthy (c : Option String) : Bool :=
  match c with
  | some t => t ≠ ""
  | none => false

/-- `getAccessToken` (lines 260-289).  `now` is the `Date.now()` read at entry
and `nowAfter` the one after the refresh response; `refresh` is the network
outcome of the token exchange (an HTTP status and body on failure).  Returns
the token-or-throw outcome, the state after the call, and whether a refresh
request was performed. -/
def getAccessToken (st : MoloniState) (now : ℚ)
    (refresh : Except (Nat × String) TokenJson) (nowAfter : ℚ) :
    Except String String × MoloniState × Bool :=
  if cacheTruthy st.cachedToken ∧ now < st.tokenExpiresAt then
    (.ok (st.cachedToken.getD ""), st, false)
  else
    match refresh with
    | .error (status, text) =>
      (.error ("Auth failed: HTTP " ++ toString status ++ ": " ++ text), st, true)
    | .ok json =>
      let expiresInMs := tokenLifetime json.expires_in * 1000
      (.ok json.access_token,
        { cachedToken := some json.access_token,
          tokenExpiresAt := nowAfter + expiresInMs - 30000 }, true)

/-- `createInvoice` (lines 216-234): acquire a token, then POST the invoice;
`post` is the network outcome of that POST (status and body on failure).
Returns the response-or-throw outcome, the client state after the call, and
whether a token refresh was performed. -/
def createInvoice (st : MoloniState) (now : ℚ)
    (refresh : Except (Nat × String) TokenJson) (nowAfter : ℚ)
    (post : Except (Nat × String) Json) :
    Except String Json × MoloniState × Bool :=
  match getAccessToken st now refresh nowAfter with
  | (.error e, st1, did) => (.error e, st1, did)
  | (.ok _, st1, did) =>
    match post with
    | .error (status, text) =>
      (.error ("HTTP " ++ toString status ++ ": " ++ text), st1, did)
    | .ok body => (.ok body, st1, did)

/-!
Request handler (`fetch` + `extractInvoiceId`, worker.ts lines 58-106 and
198-203).  `JSON.parse` is a platform primitive, so its outcome is an input
(`none` models a parse exception); the Moloni network outcomes and the
fire-and-forget email outcome are inputs as well.
-/

/-- The environment bindings (worker.ts lines 5-15). -/
structure Env where
  DONORBOX_WEBHOOK_SECRET : Option String
  MOLONI_CLIENT_ID : String
  MOLONI_CLIENT_SECRET : String
  MOLONI_REFRESH_TOKEN : String
  MOLONI_COMPANY_ID : String
  MOLONI_DOCUMENT_SET_ID : String
  MOLONI_PRODUCT_ID : String
  MOLONI_TAX_ID : Option String
  MOLONI_FALLBACK_EMAIL : Option String

/-- Body of an HTTP response from the worker: plain text, or the
`Response.json({ok: true, invoice})` success shape (line 100). -/
inductive RespBody where
  | text (s : String) : RespBody
  | jsonOk (invoice : Json) : RespBody

/-- An HTTP response from the worker. -/
structure WResponse where
  status : Nat
  body : RespBody

/-- Outcome of the detached `sendInvoiceEmail` task (line 95): it resolves,
rejects with an error message, or is still pending when observed. -/
inductive EmailOutcome where
  | ok : EmailOutcome
  | err (msg : String) : EmailOutcome
  | delayed : EmailOutcome

/-- `extractInvoiceId` (lines 198-203):
`obj?.document_id || obj?.documentId || obj?.id`, with `undefined`/`null`
mapping to no identifier and anything else stringified. -/
def extractInvoiceId (invoice : Json) : Option String :=
  let maybeId :=
    if truthyOpt (jsFieldQ invoice "document_id") then jsFieldQ invoice "document_id"
    else if truthyOpt (jsFieldQ invoice "documentId") then jsFieldQ invoice "documentId"
    else jsFieldQ invoice "id"
  match maybeId with
  | none => none
  | some .null => none
  | some v => some (jsToString v)

/-- Truthiness of the extracted invoice id (`invoiceId &&` on line 94: `null`
and the empty string are falsy). -/
def idTruthy (i : Option String) : Bool :=
  match i with
  | some s => s ≠ ""
  | none => false

/-- Whether signature validation is enabled (line 67: an unset or empty secret
skips it). -/
def secretConfigured (env : Env) : Bool :=
  match env.DONORBOX_WEBHOOK_SECRET with
  | some s => s ≠ ""
  | none => false

/-- The handler body after signature validation (lines 74-104): parse, map,
validate sufficiency, create the invoice, fire-and-forget the email.  Returns
the response together with the `console.error` log lines, or the uncaught
exception text when the mapper throws outside every try block (line 81). -/
def handleParsed (env : Env) (parseResult : Option Json)
    (invoiceResult : Except String Json) (emailOutcome : EmailOutcome) :
    Except String (WResponse × List String) :=
  match parseResult with
  | none => .ok (⟨400, .text "Invalid JSON"⟩, [])
  | some payload =>
    match mapDonorboxPayload payload with
    | .error e => .error e
    | .ok donation =>
      if donation.amount.falsy || donation.currency = "" then
        .ok (⟨422, .text "Missing amount or currency from Donorbox payload"⟩, [])
      else
        match invoiceResult with
        | .error msg => .ok (⟨502, .text ("Moloni error: " ++ msg)⟩, [])
        | .ok invoice =>
          let invoiceId := extractInvoiceId invoice
          let recipient := firstTruthyO [donation.email, env.MOLONI_FALLBACK_EMAIL.map Json.str]
          let logs :=
            if idTruthy invoiceId && truthyOpt recipient then
              match emailOutcome with
              | .err m => ["Failed to email invoice via Moloni: " ++ m]
              | _ => []
            else []
          .ok (⟨200, .jsonOk invoice⟩, logs)

/-- The worker `fetch` entry point (lines 58-106).  `parseResult` is the
`JSON.parse(rawBody)` outcome, `invoiceResult` the `moloni.createInvoice`
outcome (message of the thrown error on failure), `emailOutcome` the detached
email task outcome. -/
def workerFetch (hmacSha1 hmacSha256 : String → String → List Nat) (env : Env)
    (method : String) (rawBody : String) (sigHeader : Option String)
    (parseResult : Option Json) (invoiceResult : Except String Json)
    (emailOutcome : EmailOutcome) : Except String (WResponse × List String) :=
  if method ≠ "POST" then .ok (⟨405, .text "Expected POST"⟩, [])
  else if secretConfigured env then
    if validateDonorboxSignature hmacSha1 hmacSha256 rawBody sigHeader
        (env.DONORBOX_WEBHOOK_SECRET.getD "") then
      handleParsed env parseResult invoiceResult emailOutcome
    else .ok (⟨401, .text "Invalid signature"⟩, [])
  else handleParsed env parseResult invoiceResult emailOutcome

/-!
Helper lemmas about the embedding, then one theorem per claim.
-/

theorem mapped_fields {p : Json} {d : Donation}
    (h : mapDonorboxPayload p = .ok d) :
    d.name = mapName (resolvedDonor (resolvedData p)) ∧
    d.email = mapEmail (resolvedData p) (resolvedDonor (resolvedData p)) ∧
    d.amount = jsToNumber (resolvedAmountField (resolvedData p)) ∧
    d.currency = mapCurrency (resolvedData p) := by
  simp only [mapDonorboxPayload] at h
  cases hm : mapExternalId (resolvedData p) p with
  | error e => simp [hm] at h
  | ok eid =>
    simp only [hm] at h
    injection h with h
    subst h
    exact ⟨rfl, rfl, rfl, rfl⟩

theorem truthy_firstTruthyD (xs : List (Option Json)) (dflt : Json)
    (hd : truthy dflt = true) : truthy (firstTruthyD xs dflt) = true := by
  induction xs with
  | nil => exact hd
  | cons x rest ih =>
    cases x with
    | none => exact ih
    | some v =>
      by_cases hv : truthy v = true
      · simp [firstTruthyD, hv]
      · simp only [firstTruthyD]
        rw [Bool.not_eq_true] at hv
        simpa [hv]

theorem firstTruthyD_not_arr (xs : List (Option Json)) (dflt : Json)
    (hx : ∀ l, firstTruthyD xs dflt ≠ .arr l) (l : List Json) :
    firstTruthyD xs dflt ≠ .arr l := hx l

theorem natDigitsRevGo_ne_nil (fuel n : Nat) : natDigitsRevGo fuel n ≠ [] := by
  cases fuel with
  | zero => simp [natDigitsRevGo]
  | succ fuel =>
    simp only [natDigitsRevGo]
    split <;> simp

theorem qToString_ne_empty (q : ℚ) : qToString q ≠ "" := by
  intro h
  have hlen := congrArg String.length h
  simp only [qToString, String.length_mk, List.length_append, String.length_empty] at hlen
  have h1 : (natDigits (|q|.floor.toNat)).length = 0 := by omega
  rw [List.length_eq_zero] at h1
  exact natDigitsRevGo_ne_nil _ _ (by
    simpa [natDigits, natDigitsRev] using congrArg List.reverse h1)

theorem jsToString_ne_empty (v : Json) (ht : truthy v = true)
    (ha : ∀ l, v ≠ .arr l) : jsToString v ≠ "" := by
  cases v with
  | null => simp [truthy] at ht
  | bool b =>
    cases b with
    | true => simp [jsToString]
    | false => simp [truthy] at ht
  | num q => simpa [jsToString] using qToString_ne_empty q
  | str s => simpa [jsToString] using by simpa [truthy] using ht
  | arr l => exact absurd rfl (ha l)
  | obj fields => simp [jsToString]

theorem jsToUpper_ne_empty (s : String) (h : s ≠ "") : jsToUpper s ≠ "" := by
  intro hc
  apply h
  have hlen := congrArg String.length hc
  simp only [jsToUpper, String.length_mk, List.length_map] at hlen
  apply String.ext
  have h0 : s.data.length = 0 := by simpa using hlen
  rw [List.length_eq_zero] at h0
  exact h0

/-- Claim-side comparison definition, following the words of C2 only: each
first/last part trimmed, empty parts dropped, the rest joined with a single
space (this is not what the code computes; the code joins first and trims
the whole). -/
def claimedJoinedFirstLast (donor : Json) : String :=
  String.intercalate " "
    ((([jsField donor "first_name", jsField donor "last_name"].filterMap id).map
      (fun v => jsTrim (jsToString v))).filter (fun s => s ≠ ""))

/-- C9: the claim says `mapDonorboxPayload` is total for every JSON value
including null, and the spec says the mapper never fails; but the code reads
`payload.id` (worker.ts line 155) without the optional chaining it uses on
line 138, so the JSON body `null` makes the mapper throw a TypeError.  This
theorem evaluates the embedded mapper at that failing input. -/
theorem C9_null_payload_throws :
    mapDonorboxPayload Json.null =
      .error "TypeError: cannot read properties of null (reading id)" := rfl

/-- C3 counterexample: a payload whose resolved amount field is the
non-numeric string "abc" maps to amount NaN, not 0 as claimed. -/
theorem C3_counterexample :
    (mapDonorboxPayload (.obj [("data", .obj [("amount", .str "abc"), ("currency", .str "EUR")])])).map
        Donation.amount = .ok JsNum.nan ∧
    JsNum.nan ≠ JsNum.val 0 :=
  ⟨rfl, by decide⟩

/-- C3 (amended): for every payload whose resolved amount field is a
non-numeric string (one whose JavaScript numeric coercion is NaN), the mapped
donation amount is NaN — the platform coercion is inherited, not replaced
by 0. -/
theorem C3_nonnumeric_amount_nan (p : Json) (s : String)
    (hok : (mapDonorboxPayload p).isOk = true)
    (ha : resolvedAmountField (resolvedData p) = .str s)
    (hn : jsStringToNumber s = .nan) :
    (mapDonorboxPayload p).map Donation.amount = .ok JsNum.nan := by
  cases hm : mapDonorboxPayload p with
  | error e => rw [hm] at hok; exact Bool.noConfusion hok
  | ok d =>
    obtain ⟨-, -, hamount, -⟩ := mapped_fields hm
    simp only [Except.map]
    rw [hamount, ha]
    simp [jsToNumber, hn]

/-- C3 witness: the amended theorem applied at the "abc" payload. -/
theorem C3_witness :
    (mapDonorboxPayload (.obj [("data", .obj [("amount", .str "abc"), ("currency", .str "EUR")])])).map
      Donation.amount = .ok JsNum.nan :=
  C3_nonnumeric_amount_nan (.obj [("data", .obj [("amount", .str "abc"), ("currency", .str "EUR")])])
    "abc" rfl rfl rfl

/-- C2 counterexample: with donor fields first_name "A " and last_name "B"
and no explicit name, the code maps the name to "A  B" (parts are joined
before the single trim), while the claimed per-part trimming would give
"A B". -/
theorem C2_counterexample :
    (mapDonorboxPayload (.obj [("donor", .obj [("first_name", .str "A "), ("last_name", .str "B")])])).map
        Donation.name = .ok (.str "A  B") ∧
    claimedJoinedFirstLast
        (resolvedDonor (resolvedData (.obj [("donor", .obj [("first_name", .str "A "), ("last_name", .str "B")])])))
      = "A B" ∧
    Json.str "A  B" ≠ Json.str "A B" := by
  refine ⟨rfl, rfl, ?_⟩
  simp

/-- C2 (amended): when the donor record has no explicit name field, the
mapped name is the truthiness-filtered first/last parts joined with one
space with only the whole join trimmed; if that join is empty (in
particular when neither part is present) the name is the default literal
"Donorbox Donor". -/
theorem C2_name_resolution (p : Json)
    (hok : (mapDonorboxPayload p).isOk = true)
    (hn : jsField (resolvedDonor (resolvedData p)) "name" = none) :
    (mapDonorboxPayload p).map Donation.name =
      .ok (if joinedFirstLast (resolvedDonor (resolvedData p)) = ""
           then Json.str "Donorbox Donor"
           else .str (joinedFirstLast (resolvedDonor (resolvedData p)))) ∧
    (jsField (resolvedDonor (resolvedData p)) "first_name" = none ∧
     jsField (resolvedDonor (resolvedData p)) "last_name" = none →
      (mapDonorboxPayload p).map Donation.name = .ok (.str "Donorbox Donor")) := by
  cases hm : mapDonorboxPayload p with
  | error e => rw [hm] at hok; exact Bool.noConfusion hok
  | ok d =>
    obtain ⟨hname, -, -, -⟩ := mapped_fields hm
    have hmain : Except.map Donation.name (Except.ok (ε := String) d) =
        .ok (if joinedFirstLast (resolvedDonor (resolvedData p)) = ""
             then Json.str "Donorbox Donor"
             else .str (joinedFirstLast (resolvedDonor (resolvedData p)))) := by
      simp only [Except.map]
      congr 1
      rw [hname, mapName, hn]
      by_cases hj : joinedFirstLast (resolvedDonor (resolvedData p)) = ""
      · simp [firstTruthyD, truthy, hj]
      · simp [firstTruthyD, truthy, hj]
    refine ⟨hmain, fun hfl => ?_⟩
    have hj : joinedFirstLast (resolvedDonor (resolvedData p)) = "" := by
      rw [joinedFirstLast, hfl.1, hfl.2]
      rfl
    rw [hmain]
    simp [hj]

/-- C2 witness: the amended theorem applied at a donor with only a first
name. -/
theorem C2_witness :
    (mapDonorboxPayload (.obj [("donor", .obj [("first_name", .str "Jo")])])).map Donation.name =
      .ok (if joinedFirstLast (resolvedDonor (resolvedData (.obj [("donor", .obj [("first_name", .str "Jo")])]))) = ""
           then Json.str "Donorbox Donor"
           else .str (joinedFirstLast (resolvedDonor (resolvedData (.obj [("donor", .obj [("first_name", .str "Jo")])]))))) ∧
    (jsField (resolvedDonor (resolvedData (.obj [("donor", .obj [("first_name", .str "Jo")])]))) "first_name" = none ∧
     jsField (resolvedDonor (resolvedData (.obj [("donor", .obj [("first_name", .str "Jo")])]))) "last_name" = none →
      (mapDonorboxPayload (.obj [("donor", .obj [("first_name", .str "Jo")])])).map Donation.name =
        .ok (.str "Donorbox Donor")) :=
  C2_name_resolution (.obj [("donor", .obj [("first_name", .str "Jo")])]) rfl rfl

/-- C5 counterexample: a refresh whose response reports `expires_in = 0`
caches expiry 1000 + 900·1000 − 30000 (the 900 default also applies to a
reported falsy zero lifetime, because the code tests `json.expires_in || 900`),
not the claimed (time of refresh + reported lifetime) − margin, which would
be 1000 + 0·1000 − 30000. -/
theorem C5_counterexample :
    getAccessToken ⟨none, 0⟩ 0 (.ok ⟨"tok", some 0⟩) 1000 =
      (.ok "tok", ⟨some "tok", 871000⟩, true) ∧
    (871000 : ℚ) ≠ 1000 + 0 * 1000 - 30000 := by
  constructor
  · rw [getAccessToken.eq_def, if_neg (fun h => Bool.noConfusion h.1)]
    norm_num [tokenLifetime]
  · norm_num

/-- C5 (amended): with a truthy cached token, `getAccessToken` returns that
token without a refresh exchange iff the current time is strictly before the
stored expiry (the token expiry minus the 30-second margin), and each
successful refresh caches the returned token with stored expiry
(time after refresh) + (reported lifetime, defaulting to 900 when absent or
reported falsy) · 1000 − 30000 ms. -/
theorem C5_token_cache_invariant (st : MoloniState) (t : String)
    (hc : st.cachedToken = some t) (ht : t ≠ "")
    (now nowAfter : ℚ) (refresh : Except (Nat × String) TokenJson) :
    (((getAccessToken st now refresh nowAfter).1 = .ok t ∧
      (getAccessToken st now refresh nowAfter).2.2 = false) ↔
        now < st.tokenExpiresAt) ∧
    (∀ r, refresh = .ok r → ¬ now < st.tokenExpiresAt →
      (getAccessToken st now refresh nowAfter).2.1 =
        ⟨some r.access_token, nowAfter + tokenLifetime r.expires_in * 1000 - 30000⟩) := by
  have hcache : cacheTruthy st.cachedToken = true := by simp [cacheTruthy, hc, ht]
  by_cases hlt : now < st.tokenExpiresAt
  · have hred : getAccessToken st now refresh nowAfter = (.ok t, st, false) := by
      rw [getAccessToken.eq_def, if_pos ⟨hcache, hlt⟩, hc]
      rfl
    rw [hred]
    exact ⟨⟨fun _ => hlt, fun _ => ⟨rfl, rfl⟩⟩, fun r hr habs => absurd hlt habs⟩
  · have hcond : ¬ (cacheTruthy st.cachedToken = true ∧ now < st.tokenExpiresAt) :=
      fun h => hlt h.2
    constructor
    · constructor
      · intro h
        exfalso
        cases hrf : refresh with
        | error e =>
          obtain ⟨s0, x0⟩ := e
          rw [getAccessToken.eq_def, if_neg hcond, hrf] at h
          exact Bool.noConfusion h.2
        | ok r0 =>
          rw [getAccessToken.eq_def, if_neg hcond, hrf] at h
          exact Bool.noConfusion h.2
      · intro h
        exact absurd h hlt
    · intro r hr _
      subst hr
      rw [getAccessToken.eq_def, if_neg hcond]

/-- C5 witness: the amended theorem applied at a cached token "tok" with
stored expiry 871000 read at time 100, with an available refresh response. -/
theorem C5_witness :
    (((getAccessToken ⟨some "tok", 871000⟩ 100 (.ok ⟨"t2", some 60⟩) 200).1 = .ok "tok" ∧
      (getAccessToken ⟨some "tok", 871000⟩ 100 (.ok ⟨"t2", some 60⟩) 200).2.2 = false) ↔
        (100 : ℚ) < (⟨some "tok", 871000⟩ : MoloniState).tokenExpiresAt) ∧
    (∀ r, (.ok ⟨"t2", some 60⟩ : Except (Nat × String) TokenJson) = .ok r →
      ¬ (100 : ℚ) < (⟨some "tok", 871000⟩ : MoloniState).tokenExpiresAt →
      (getAccessToken ⟨some "tok", 871000⟩ 100 (.ok ⟨"t2", some 60⟩) 200).2.1 =
        ⟨some r.access_token, 200 + tokenLifetime r.expires_in * 1000 - 30000⟩) :=
  C5_token_cache_invariant ⟨some "tok", 871000⟩ "tok" rfl (by decide) 100 200 (.ok ⟨"t2", some 60⟩)

/-- C4: starting from the fresh per-instance cache, a first invoice-creation
call performs a refresh; a second call sharing the cache performs no refresh
when made before the stored expiry (expiry minus the margin), and performs
exactly the one refresh of that call when made at or after it. -/
theorem C4_token_cache_two_calls (r : TokenJson) (hr : r.access_token ≠ "")
    (t1 ta1 t2 ta2 : ℚ) (p1 p2 : Except (Nat × String) Json)
    (refresh2 : Except (Nat × String) TokenJson) :
    (createInvoice ⟨none, 0⟩ t1 (.ok r) ta1 p1).2.2 = true ∧
    (t2 < (createInvoice ⟨none, 0⟩ t1 (.ok r) ta1 p1).2.1.tokenExpiresAt →
      (createInvoice (createInvoice ⟨none, 0⟩ t1 (.ok r) ta1 p1).2.1 t2 refresh2 ta2 p2).2.2 = false) ∧
    (¬ t2 < (createInvoice ⟨none, 0⟩ t1 (.ok r) ta1 p1).2.1.tokenExpiresAt →
      (createInvoice (createInvoice ⟨none, 0⟩ t1 (.ok r) ta1 p1).2.1 t2 refresh2 ta2 p2).2.2 = true) := by
  have hg1 : getAccessToken ⟨none, 0⟩ t1 (.ok r) ta1 =
      (.ok r.access_token,
        ⟨some r.access_token, ta1 + tokenLifetime r.expires_in * 1000 - 30000⟩, true) := by
    rw [getAccessToken.eq_def, if_neg (fun h => Bool.noConfusion h.1)]
  have hs1 : (createInvoice ⟨none, 0⟩ t1 (.ok r) ta1 p1).2 =
      (⟨some r.access_token, ta1 + tokenLifetime r.expires_in * 1000 - 30000⟩, true) := by
    simp only [createInvoice, hg1]
    cases p1 with
    | error e => obtain ⟨a, b⟩ := e; rfl
    | ok b => rfl
  refine ⟨by rw [show (createInvoice ⟨none, 0⟩ t1 (.ok r) ta1 p1).2.2 =
      ((createInvoice ⟨none, 0⟩ t1 (.ok r) ta1 p1).2).2 from rfl, hs1], ?_, ?_⟩
  · intro hlt
    rw [hs1] at hlt
    have hlt2 : t2 < ta1 + tokenLifetime r.expires_in * 1000 - 30000 := hlt
    rw [hs1]
    show (createInvoice ⟨some r.access_token, ta1 + tokenLifetime r.expires_in * 1000 - 30000⟩
      t2 refresh2 ta2 p2).2.2 = false
    have hg2 : getAccessToken
        ⟨some r.access_token, ta1 + tokenLifetime r.expires_in * 1000 - 30000⟩ t2 refresh2 ta2 =
          (.ok r.access_token,
            ⟨some r.access_token, ta1 + tokenLifetime r.expires_in * 1000 - 30000⟩, false) := by
      rw [getAccessToken.eq_def, if_pos ⟨by simp [cacheTruthy, hr], hlt2⟩]
      rfl
    simp only [createInvoice, hg2]
    cases p2 with
    | error e => obtain ⟨a, b⟩ := e; rfl
    | ok b => rfl
  · intro hlt
    rw [hs1] at hlt
    have hlt2 : ¬ t2 < ta1 + tokenLifetime r.expires_in * 1000 - 30000 := hlt
    rw [hs1]
    show (createInvoice ⟨some r.access_token, ta1 + tokenLifetime r.expires_in * 1000 - 30000⟩
      t2 refresh2 ta2 p2).2.2 = true
    cases refresh2 with
    | error e =>
      obtain ⟨s0, x0⟩ := e
      have hg2 : getAccessToken
          ⟨some r.access_token, ta1 + tokenLifetime r.expires_in * 1000 - 30000⟩ t2 (.error (s0, x0)) ta2 =
            (.error ("Auth failed: HTTP " ++ toString s0 ++ ": " ++ x0),
              ⟨some r.access_token, ta1 + tokenLifetime r.expires_in * 1000 - 30000⟩, true) := by
        rw [getAccessToken.eq_def, if_neg (fun h => hlt2 h.2)]
      simp only [createInvoice, hg2]
    | ok rj =>
      have hg2 : getAccessToken
          ⟨some r.access_token, ta1 + tokenLifetime r.expires_in * 1000 - 30000⟩ t2 (.ok rj) ta2 =
            (.ok rj.access_token,
              ⟨some rj.access_token, ta2 + tokenLifetime rj.expires_in * 1000 - 30000⟩, true) := by
        rw [getAccessToken.eq_def, if_neg (fun h => hlt2 h.2)]
      simp only [createInvoice, hg2]
      cases p2 with
      | error e2 => obtain ⟨a, b⟩ := e2; rfl
      | ok b => rfl

/-- C4 witness: the theorem applied with a refresh response of lifetime 900 s
obtained at time 0, a second call at time 500000 (before expiry 870000) and
the complementary after-expiry implication. -/
theorem C4_witness :
    (createInvoice ⟨none, 0⟩ 0 (.ok ⟨"tok", none⟩) 0 (.ok .null)).2.2 = true ∧
    ((500000 : ℚ) < (createInvoice ⟨none, 0⟩ 0 (.ok ⟨"tok", none⟩) 0 (.ok .null)).2.1.tokenExpiresAt →
      (createInvoice (createInvoice ⟨none, 0⟩ 0 (.ok ⟨"tok", none⟩) 0 (.ok .null)).2.1 500000
        (.ok ⟨"t2", none⟩) 500001 (.ok .null)).2.2 = false) ∧
    (¬ (500000 : ℚ) < (createInvoice ⟨none, 0⟩ 0 (.ok ⟨"tok", none⟩) 0 (.ok .null)).2.1.tokenExpiresAt →
      (createInvoice (createInvoice ⟨none, 0⟩ 0 (.ok ⟨"tok", none⟩) 0 (.ok .null)).2.1 500000
        (.ok ⟨"t2", none⟩) 500001 (.ok .null)).2.2 = true) :=
  C4_token_cache_two_calls ⟨"tok", none⟩ (by decide) 0 0 500000 500001 (.ok .null) (.ok .null)
    (.ok ⟨"t2", none⟩)

/-- A concrete environment used by witness and counterexample instantiations
(no webhook secret, so signature validation is skipped). -/
def testEnv : Env :=
  { DONORBOX_WEBHOOK_SECRET := none, MOLONI_CLIENT_ID := "cid", MOLONI_CLIENT_SECRET := "cs",
    MOLONI_REFRESH_TOKEN := "rt", MOLONI_COMPANY_ID := "co", MOLONI_DOCUMENT_SET_ID := "ds",
    MOLONI_PRODUCT_ID := "pr", MOLONI_TAX_ID := none, MOLONI_FALLBACK_EMAIL := none }

/-- A placeholder HMAC primitive for instantiations that never reach it. -/
def noHmac : String → String → List Nat := fun _ _ => []

/-- C1: for every POST request whose body parses as JSON and passes the
signature stage, if the mapped donation has amount 0 or empty currency, the
handler responds 422 with the fixed text, regardless of every other payload
field, of the Moloni outcome and of the email outcome. -/
theorem C1_amount_or_currency_missing_422
    (hmacSha1 hmacSha256 : String → String → List Nat) (env : Env)
    (rawBody : String) (sigHeader : Option String) (payload : Json)
    (invoiceResult : Except String Json) (emailOutcome : EmailOutcome)
    (hbad : (mapDonorboxPayload payload).map Donation.amount = .ok (.val 0) ∨
            (mapDonorboxPayload payload).map Donation.currency = .ok "")
    (hsig : secretConfigured env = false ∨
            validateDonorboxSignature hmacSha1 hmacSha256 rawBody sigHeader
              (env.DONORBOX_WEBHOOK_SECRET.getD "") = true) :
    workerFetch hmacSha1 hmacSha256 env "POST" rawBody sigHeader (some payload)
        invoiceResult emailOutcome =
      .ok (⟨422, .text "Missing amount or currency from Donorbox payload"⟩, []) := by
  obtain ⟨d, hm, hb⟩ : ∃ d, mapDonorboxPayload payload = .ok d ∧
      (d.amount = .val 0 ∨ d.currency = "") := by
    cases hm : mapDonorboxPayload payload with
    | error e =>
      rcases hbad with h | h <;> rw [hm] at h <;> exact absurd h (by simp [Except.map])
    | ok d =>
      refine ⟨d, rfl, ?_⟩
      rcases hbad with h | h <;> rw [hm] at h <;> simp only [Except.map] at h <;>
        injection h with h
      · exact Or.inl h
      · exact Or.inr h
  have hfalsy : (d.amount.falsy || decide (d.currency = "")) = true := by
    rcases hb with h | h <;> simp [JsNum.falsy, h]
  have hhandle : handleParsed env (some payload) invoiceResult emailOutcome =
      .ok (⟨422, .text "Missing amount or currency from Donorbox payload"⟩, []) := by
    simp only [handleParsed, hm]
    rw [if_pos hfalsy]
  rcases hsig with hs | hs
  · simp [workerFetch, hs, hhandle]
  · by_cases hc : secretConfigured env = true
    · simp [workerFetch, hc, hs, hhandle]
    · simp [workerFetch, hc, hhandle]

/-- C1 witness: the theorem applied at a payload with amount 0 and no
currency field, under the secretless test environment. -/
theorem C1_witness :
    workerFetch noHmac noHmac testEnv "POST" "" none
        (some (.obj [("data", .obj [("amount", .num 0)])])) (.ok .null) .ok =
      .ok (⟨422, .text "Missing amount or currency from Donorbox payload"⟩, []) :=
  C1_amount_or_currency_missing_422 noHmac noHmac testEnv "" none
    (.obj [("data", .obj [("amount", .num 0)])]) (.ok .null) .ok (Or.inl rfl) (Or.inl rfl)

/-- C10 counterexample: the payload `{"data":{"amount":1,"currency":[]}}` has
a truthy array currency whose string form is empty, so the mapped currency is
the empty string and the handler rejects with 422 even though the amount is
the nonzero 1 — contradicting both the claimed non-empty currency invariant
and the claimed amount-only reachability of the 422. -/
theorem C10_counterexample :
    (mapDonorboxPayload (.obj [("data", .obj [("amount", .num 1), ("currency", .arr [])])])).map
        Donation.currency = .ok "" ∧
    (mapDonorboxPayload (.obj [("data", .obj [("amount", .num 1), ("currency", .arr [])])])).map
        Donation.amount = .ok (.val 1) ∧
    workerFetch noHmac noHmac testEnv "POST" "" none
        (some (.obj [("data", .obj [("amount", .num 1), ("currency", .arr [])])])) (.ok .null) .ok =
      .ok (⟨422, .text "Missing amount or currency from Donorbox payload"⟩, []) :=
  ⟨rfl, rfl, rfl⟩

/-- C10 (amended): whenever the resolved currency value is not an array, the
mapped currency is its uppercased string form and is non-empty (the chain
falls back to the truthy literal "EUR" when both currency fields are absent
or falsy); only an array-valued currency with empty string form can make the
currency check trip the 422. -/
theorem C10_currency_nonempty (p : Json)
    (hok : (mapDonorboxPayload p).isOk = true)
    (ha : ∀ l, resolvedCurrencyVal (resolvedData p) ≠ .arr l) :
    (mapDonorboxPayload p).map Donation.currency =
      .ok (jsToUpper (jsToString (resolvedCurrencyVal (resolvedData p)))) ∧
    (mapDonorboxPayload p).map Donation.currency ≠ .ok "" := by
  cases hm : mapDonorboxPayload p with
  | error e => rw [hm] at hok; exact Bool.noConfusion hok
  | ok d =>
    obtain ⟨-, -, -, hcur⟩ := mapped_fields hm
    have h1 : Except.map Donation.currency (Except.ok (ε := String) d) =
        .ok (jsToUpper (jsToString (resolvedCurrencyVal (resolvedData p)))) := by
      simp only [Except.map]
      rw [hcur, mapCurrency]
    refine ⟨h1, ?_⟩
    rw [h1]
    intro hc
    injection hc with hc
    have htr : truthy (resolvedCurrencyVal (resolvedData p)) = true := by
      rw [resolvedCurrencyVal]
      exact truthy_firstTruthyD _ _ (by decide)
    exact jsToUpper_ne_empty _ (jsToString_ne_empty _ htr ha) hc

/-- C10 witness: the amended theorem applied at a payload with lowercase
string currency "eur". -/
theorem C10_witness :
    (mapDonorboxPayload (.obj [("data", .obj [("currency", .str "eur")])])).map
        Donation.currency =
      .ok (jsToUpper (jsToString (resolvedCurrencyVal
        (resolvedData (.obj [("data", .obj [("currency", .str "eur")])]))))) ∧
    (mapDonorboxPayload (.obj [("data", .obj [("currency", .str "eur")])])).map
        Donation.currency ≠ .ok "" :=
  C10_currency_nonempty (.obj [("data", .obj [("currency", .str "eur")])]) rfl
    (fun _ h => Json.noConfusion h)

/-- C6: with a fixed successful invoice-creation outcome, the HTTP response
(status and body) of the handler is identical for every outcome of the
detached send-invoice-email task — resolution, rejection, or delay — and the
email result reaches only the log component. -/
theorem C6_email_noninterference
    (hmacSha1 hmacSha256 : String → String → List Nat) (env : Env)
    (method rawBody : String) (sigHeader : Option String) (parseResult : Option Json)
    (invoice : Json) (e1 e2 : EmailOutcome) :
    (workerFetch hmacSha1 hmacSha256 env method rawBody sigHeader parseResult
        (.ok invoice) e1).map Prod.fst =
      (workerFetch hmacSha1 hmacSha256 env method rawBody sigHeader parseResult
        (.ok invoice) e2).map Prod.fst := by
  have hh : ∀ e, (handleParsed env parseResult (.ok invoice) e).map Prod.fst =
      (handleParsed env parseResult (.ok invoice) .ok).map Prod.fst := by
    intro e
    cases parseResult with
    | none => rfl
    | some payload =>
      cases hm : mapDonorboxPayload payload with
      | error er => simp [handleParsed, hm]
      | ok d =>
        simp only [handleParsed, hm]
        by_cases hb : (d.amount.falsy || decide (d.currency = "")) = true
        · rw [if_pos hb, if_pos hb]
        · rw [if_neg hb, if_neg hb]
          rfl
  by_cases hm405 : method ≠ "POST"
  · simp [workerFetch, hm405]
  · by_cases hsc : secretConfigured env = true
    · by_cases hv : validateDonorboxSignature hmacSha1 hmacSha256 rawBody sigHeader
          (env.DONORBOX_WEBHOOK_SECRET.getD "") = true
      · simp only [workerFetch, if_neg hm405, hsc, if_true, hv]
        rw [hh e1, hh e2]
      · simp [workerFetch, hm405, hsc, hv]
    · simp only [workerFetch, if_neg hm405]
      rw [if_neg (by simpa using hsc), if_neg (by simpa using hsc)]
      rw [hh e1, hh e2]

/-- Bitwise-or of naturals is zero exactly when both are. -/
theorem lor_eq_zero_iff_both (a b : Nat) : a ||| b = 0 ↔ a = 0 ∧ b = 0 := by
  constructor
  · intro h
    have hk : ∀ k, Nat.testBit (a ||| b) k = false := by
      intro k; rw [h]; exact Nat.zero_testBit k
    constructor <;> apply Nat.eq_of_testBit_eq <;> intro k <;>
      simp only [Nat.zero_testBit]
    · have := hk k
      simp only [Nat.testBit_lor, Bool.or_eq_false_iff] at this
      exact this.1
    · have := hk k
      simp only [Nat.testBit_lor, Bool.or_eq_false_iff] at this
      exact this.2
  · rintro ⟨rfl, rfl⟩; rfl

/-- The or-of-xors accumulator is zero exactly when it started zero and every
zipped pair of characters agrees. -/
theorem xorFold_aux (l : List (Char × Char)) (acc : Nat) :
    (l.foldl (fun out p => out ||| (p.1.toNat ^^^ p.2.toNat)) acc = 0) ↔
      (acc = 0 ∧ ∀ p ∈ l, p.1 = p.2) := by
  induction l generalizing acc with
  | nil => simp
  | cons x t ih =>
    simp only [List.foldl_cons, List.mem_cons]
    rw [ih, lor_eq_zero_iff_both]
    constructor
    · rintro ⟨⟨ha, hx⟩, ht⟩
      refine ⟨ha, fun p hp => ?_⟩
      rcases hp with rfl | hp
      · exact Char.eq_of_val_eq (UInt32.toNat.inj (Nat.xor_eq_zero.mp hx))
      · exact ht p hp
    · rintro ⟨ha, hall⟩
      exact ⟨⟨ha, Nat.xor_eq_zero.mpr (by rw [hall x (Or.inl rfl)])⟩,
        fun p hp => hall p (Or.inr hp)⟩

/-- Lists of equal length with pointwise-equal zip are equal. -/
theorem eq_of_zip_eq (a : List Char) : ∀ (b : List Char), a.length = b.length →
    (∀ p ∈ a.zip b, p.1 = p.2) → a = b := by
  induction a with
  | nil => intro b hl _; cases b with | nil => rfl | cons y u => simp at hl
  | cons x t ih =>
    intro b hl h
    cases b with
    | nil => simp at hl
    | cons y u =>
      have hx : x = y := h (x, y) (by rw [List.zip_cons_cons]; exact List.mem_cons_self _ _)
      have ht : t = u := ih u (by simpa using hl)
        (fun p hp => h p (by rw [List.zip_cons_cons]; exact List.mem_cons_of_mem _ hp))
      rw [hx, ht]

/-- Every pair drawn from a list zipped with itself is diagonal. -/
theorem mem_zip_same (l : List Char) (p : Char × Char) (hp : p ∈ l.zip l) :
    p.1 = p.2 := by
  induction l with
  | nil => cases hp
  | cons x t ih =>
    rw [List.zip_cons_cons] at hp
    rcases List.mem_cons.mp hp with rfl | hp
    · rfl
    · exact ih hp

/-- The constant-time comparison decides string equality. -/
theorem timingSafeEqual_true_iff (a b : String) :
    timingSafeEqual a b = true ↔ a = b := by
  rw [timingSafeEqual]
  by_cases hl : a.data.length ≠ b.data.length
  · rw [if_pos hl]
    simp only [Bool.false_eq_true, false_iff]
    intro h; subst h; exact hl rfl
  · rw [if_neg hl]
    push_neg at hl
    rw [beq_iff_eq, xorFold, xorFold_aux]
    constructor
    · rintro ⟨-, hall⟩
      exact String.ext (eq_of_zip_eq _ _ hl hall)
    · intro h
      subst h
      exact ⟨rfl, fun p hp => mem_zip_same _ p hp⟩

/-- A constant-time comparison of strings of different lengths is false. -/
theorem timingSafeEqual_length_ne (a b : String)
    (h : a.data.length ≠ b.data.length) : timingSafeEqual a b = false := by
  rw [timingSafeEqual, if_pos h]

/-- Hexadecimal digit characters, as produced by `bufferToHex`. -/
def isHexChar (c : Char) : Bool :=
  c.isDigit || ('a' ≤ c && c ≤ 'f')

set_option maxRecDepth 8192 in
/-- Every byte renders as exactly two lowercase hex characters. -/
theorem byteToHex_hex : ∀ b : Fin 256, (byteToHex b.val).length = 2 ∧
    ∀ c ∈ byteToHex b.val, isHexChar c = true := by decide

/-- A character with hex-false classification is distinct from any hex
character. -/
theorem ne_of_hex {c : Char} (h : isHexChar c = true) (d : Char)
    (hd : isHexChar d = false) : c ≠ d := by
  intro hc
  subst hc
  rw [h] at hd
  exact Bool.noConfusion hd

/-- Hex characters are not JavaScript whitespace and are not `=`. -/
theorem hexChar_not_ws {c : Char} (h : isHexChar c = true) :
    isJsWs c = false ∧ c ≠ '=' := by
  refine ⟨?_, ne_of_hex h '=' rfl⟩
  rw [isJsWs]
  simp only [ne_of_hex h ' ' rfl, ne_of_hex h '\t' rfl, ne_of_hex h '\n' rfl,
    ne_of_hex h '\r' rfl, ne_of_hex h (Char.ofNat 11) rfl, ne_of_hex h (Char.ofNat 12) rfl,
    ne_of_hex h (Char.ofNat 160) rfl, ne_of_hex h (Char.ofNat 65279) rfl,
    ne_of_hex h (Char.ofNat 8232) rfl, ne_of_hex h (Char.ofNat 8233) rfl,
    decide_eq_false, Bool.or_self, decide_False]

/-- Length of the hex rendering: two characters per byte. -/
theorem hexList_length (bytes : List Nat) (hb : ∀ b ∈ bytes, b < 256) :
    ((bytes.map byteToHex).flatten).length = 2 * bytes.length := by
  induction bytes with
  | nil => rfl
  | cons x t ih =>
    simp only [List.map_cons, List.flatten_cons, List.length_append, List.length_cons]
    rw [ih (fun b hbm => hb b (List.mem_cons_of_mem x hbm))]
    have h2 : (byteToHex x).length = 2 := (byteToHex_hex ⟨x, hb x (List.mem_cons_self x t)⟩).1
    omega

/-- Every character of the hex rendering is a hex character. -/
theorem hexList_all_hex (bytes : List Nat) (hb : ∀ b ∈ bytes, b < 256) :
    ∀ c ∈ (bytes.map byteToHex).flatten, isHexChar c = true := by
  intro c hc
  rw [List.mem_flatten] at hc
  obtain ⟨l, hl, hcl⟩ := hc
  rw [List.mem_map] at hl
  obtain ⟨b, hbm, rfl⟩ := hl
  exact (byteToHex_hex ⟨b, hb b hbm⟩).2 c hcl

/-- dropWhile is the identity when no element satisfies the predicate. -/
theorem dropWhile_eq_self_of (p : Char → Bool) (l : List Char)
    (h : ∀ c ∈ l, p c = false) : l.dropWhile p = l := by
  cases l with
  | nil => rfl
  | cons x t =>
    rw [List.dropWhile_cons, h x (List.mem_cons_self x t)]
    simp

/-- Trimming a list without whitespace is the identity. -/
theorem jsTrimData_of_no_ws (l : List Char) (h : ∀ c ∈ l, isJsWs c = false) :
    jsTrimData l = l := by
  rw [jsTrimData, dropWhile_eq_self_of _ _ h,
    dropWhile_eq_self_of _ _ (fun c hc => h c (List.mem_reverse.mp hc))]
  exact List.reverse_reverse l

/-- Trimming never lengthens a list. -/
theorem jsTrimData_length_le (l : List Char) : (jsTrimData l).length ≤ l.length := by
  rw [jsTrimData, List.length_reverse]
  calc (List.dropWhile isJsWs (List.dropWhile isJsWs l).reverse).length
      ≤ (List.dropWhile isJsWs l).reverse.length :=
        (List.dropWhile_sublist _).length_le
    _ = (List.dropWhile isJsWs l).length := List.length_reverse _
    _ ≤ l.length := (List.dropWhile_sublist _).length_le

/-- A trim that preserves the length removed nothing. -/
theorem jsTrimData_eq_of_length (l : List Char)
    (h : (jsTrimData l).length = l.length) : jsTrimData l = l := by
  rw [jsTrimData] at h ⊢
  have h1 : (List.dropWhile isJsWs l).length ≤ l.length := (List.dropWhile_sublist _).length_le
  have h2 : (List.dropWhile isJsWs (List.dropWhile isJsWs l).reverse).length ≤
      (List.dropWhile isJsWs l).reverse.length := (List.dropWhile_sublist _).length_le
  rw [List.length_reverse] at h
  rw [List.length_reverse] at h2
  have ha : List.dropWhile isJsWs l = l :=
    (List.dropWhile_sublist _).eq_of_length (by omega)
  rw [ha] at h ⊢
  have hb : List.dropWhile isJsWs l.reverse = l.reverse :=
    (List.dropWhile_sublist _).eq_of_length (by rw [List.length_reverse]; omega)
  rw [hb, List.reverse_reverse]

/-- splitOnEq never returns the empty list of segments. -/
theorem splitOnEq_ne_nil (l : List Char) : splitOnEq l ≠ [] := by
  cases l with
  | nil => simp [splitOnEq]
  | cons c rest =>
    rw [splitOnEq]
    by_cases hc : c = '='
    · simp [hc]
    · rw [if_neg hc]
      cases splitOnEq rest <;> simp

/-- A list without `=` splits into itself alone. -/
theorem splitOnEq_no_eq (l : List Char) (h : '=' ∉ l) : splitOnEq l = [l] := by
  induction l with
  | nil => rfl
  | cons x t ih =>
    rw [splitOnEq, if_neg (fun hc => h (by rw [hc]; exact List.mem_cons_self '=' t))]
    rw [ih (fun hm => h (List.mem_cons_of_mem x hm))]

/-- Splitting a list that starts with an `=`-free run followed by `=`. -/
theorem splitOnEq_append (a rest : List Char) (h : '=' ∉ a) :
    splitOnEq (a ++ '=' :: rest) = a :: splitOnEq rest := by
  induction a with
  | nil => simp [splitOnEq]
  | cons x t ih =>
    rw [List.cons_append, splitOnEq,
      if_neg (fun hc => h (by rw [hc]; exact List.mem_cons_self '=' t)),
      ih (fun hm => h (List.mem_cons_of_mem x hm))]

/-- Parsing a header of the form `sha256=<tail>`: the algorithm resolves to
SHA-256 and the provided digest is the trimmed first segment of the tail. -/
theorem resolveSigParts_sha256 (tail : List Char) :
    resolveSigParts ⟨"sha256=".data ++ tail⟩ =
      ("SHA-256", ⟨jsTrimData ((splitOnEq tail).headD [])⟩) := by
  rw [resolveSigParts]
  have hdata : (⟨"sha256=".data ++ tail⟩ : String).data = "sha256".data ++ '=' :: tail := rfl
  rw [hdata]
  rw [if_pos (show ("sha256".data ++ '=' :: tail).contains '=' = true from
    List.elem_iff.mpr (List.mem_append.mpr (Or.inr (List.mem_cons_self '=' tail))))]
  rw [splitOnEq_append _ _ (by decide)]
  cases hsp : splitOnEq tail with
  | nil => exact absurd hsp (splitOnEq_ne_nil tail)
  | cons seg segs => rfl

/-- Reduction of the verifier on a nonempty header value. -/
theorem validate_step (hmacSha1 hmacSha256 : String → String → List Nat)
    (body secret hv : String) (hne : hv.data.isEmpty = false) :
    validateDonorboxSignature hmacSha1 hmacSha256 body (some hv) secret =
      timingSafeEqual
        (bufferToHex (if (resolveSigParts hv).1 = "SHA-1"
          then hmacSha1 secret body else hmacSha256 secret body))
        (resolveSigParts hv).2 := by
  simp only [validateDonorboxSignature, hne, Bool.false_eq_true, if_false]

/-- Algorithm component of parsing a `sha256=<tail>` header. -/
theorem resolveSigParts_sha256_fst (tail : List Char) :
    (resolveSigParts ⟨"sha256=".data ++ tail⟩).1 = "SHA-256" := by
  rw [resolveSigParts_sha256]

/-- Digest component of parsing a `sha256=<tail>` header. -/
theorem resolveSigParts_sha256_snd (tail : List Char) :
    (resolveSigParts ⟨"sha256=".data ++ tail⟩).2 =
      ⟨jsTrimData ((splitOnEq tail).headD [])⟩ := by
  rw [resolveSigParts_sha256]

/-- C7: for every body and secret, and every HMAC-SHA-256 primitive that
produces 32 bytes, signature verification accepts the header
`sha256=<hex>` carrying the exact lowercase hex digest of the raw body under
the secret, and rejects every header obtained from it by replacing any single
character of that hex digest with a different character. -/
theorem C7_signature_accept_reject
    (hmacSha1 hmacSha256 : String → String → List Nat) (body secret : String)
    (hlen : (hmacSha256 secret body).length = 32)
    (hbyte : ∀ b ∈ hmacSha256 secret body, b < 256) :
    validateDonorboxSignature hmacSha1 hmacSha256 body
        (some ("sha256=" ++ bufferToHex (hmacSha256 secret body))) secret = true ∧
    (∀ (i : Nat) (c : Char) (hi : i < (bufferToHex (hmacSha256 secret body)).data.length),
      c ≠ (bufferToHex (hmacSha256 secret body)).data.get ⟨i, hi⟩ →
      validateDonorboxSignature hmacSha1 hmacSha256 body
          (some ⟨"sha256=".data ++ (bufferToHex (hmacSha256 secret body)).data.set i c⟩)
          secret = false) := by
  have hHexData : (bufferToHex (hmacSha256 secret body)).data =
      ((hmacSha256 secret body).map byteToHex).flatten := rfl
  have hL64 : (bufferToHex (hmacSha256 secret body)).data.length = 64 := by
    rw [hHexData, hexList_length _ hbyte, hlen]
  have hHex : ∀ ch ∈ (bufferToHex (hmacSha256 secret body)).data, isHexChar ch = true := by
    rw [hHexData]; exact hexList_all_hex _ hbyte
  have hNoWs : ∀ ch ∈ (bufferToHex (hmacSha256 secret body)).data, isJsWs ch = false :=
    fun ch hch => (hexChar_not_ws (hHex ch hch)).1
  have hNoEq : '=' ∉ (bufferToHex (hmacSha256 secret body)).data :=
    fun hm => (hexChar_not_ws (hHex '=' hm)).2 rfl
  constructor
  · have heq : "sha256=" ++ bufferToHex (hmacSha256 secret body) =
        ⟨"sha256=".data ++ (bufferToHex (hmacSha256 secret body)).data⟩ :=
      String.ext (String.data_append _ _)
    rw [heq,
      validate_step hmacSha1 hmacSha256 body secret
        ⟨"sha256=".data ++ (bufferToHex (hmacSha256 secret body)).data⟩ rfl,
      resolveSigParts_sha256_fst, resolveSigParts_sha256_snd,
      splitOnEq_no_eq _ hNoEq, List.headD_cons, jsTrimData_of_no_ws _ hNoWs,
      if_neg (by decide)]
    exact (timingSafeEqual_true_iff _ _).mpr rfl
  · intro i c hi hc
    rw [validate_step hmacSha1 hmacSha256 body secret
        ⟨"sha256=".data ++ (bufferToHex (hmacSha256 secret body)).data.set i c⟩ rfl,
      resolveSigParts_sha256_fst, resolveSigParts_sha256_snd, if_neg (by decide)]
    by_cases hceq : c = '='
    · subst hceq
      have hset : (bufferToHex (hmacSha256 secret body)).data.set i '=' =
          (bufferToHex (hmacSha256 secret body)).data.take i ++
            '=' :: (bufferToHex (hmacSha256 secret body)).data.drop (i + 1) := by
        rw [List.set_eq_take_append_cons_drop, if_pos hi]
      rw [hset, splitOnEq_append _ _ (fun hm => hNoEq (List.take_subset i _ hm)),
        List.headD_cons,
        jsTrimData_of_no_ws _ (fun ch hch => hNoWs ch (List.take_subset i _ hch))]
      apply timingSafeEqual_length_ne
      rw [hL64]
      show (64 : Nat) ≠ (List.take i (bufferToHex (hmacSha256 secret body)).data).length
      rw [List.length_take]
      have hi64 : i < 64 := by rw [hL64] at hi; exact hi
      omega
    · have hmne : '=' ∉ (bufferToHex (hmacSha256 secret body)).data.set i c := by
        intro hm
        rcases List.mem_or_eq_of_mem_set hm with hm | hm
        · exact hNoEq hm
        · exact hceq hm.symm
      rw [splitOnEq_no_eq _ hmne, List.headD_cons]
      by_contra hb
      rw [Bool.not_eq_false] at hb
      have heq2 := (timingSafeEqual_true_iff _ _).mp hb
      have hdataeq : (bufferToHex (hmacSha256 secret body)).data =
          jsTrimData ((bufferToHex (hmacSha256 secret body)).data.set i c) :=
        congrArg String.data heq2
      have hlen2 : (jsTrimData ((bufferToHex (hmacSha256 secret body)).data.set i c)).length =
          ((bufferToHex (hmacSha256 secret body)).data.set i c).length := by
        rw [← hdataeq, List.length_set]
      have hms := jsTrimData_eq_of_length _ hlen2
      rw [hms] at hdataeq
      have hq1 : ((bufferToHex (hmacSha256 secret body)).data.set i c)[i]? = some c :=
        List.getElem?_set_self hi
      rw [← hdataeq] at hq1
      have hq2 : (bufferToHex (hmacSha256 secret body)).data[i]? =
          some ((bufferToHex (hmacSha256 secret body)).data.get ⟨i, hi⟩) := by
        rw [List.get_eq_getElem]
        exact List.getElem?_eq_getElem hi
      rw [hq1] at hq2
      exact hc (Option.some.inj hq2)

/-- A concrete 32-byte primitive standing in for HMAC-SHA-256 in the C7
instantiation. -/
def rangeHmac : String → String → List Nat := fun _ _ => List.range 32

set_option maxRecDepth 8192 in
/-- C7 witness: the theorem applied to the concrete 32-byte primitive, body
"x" and secret "k". -/
theorem C7_witness :
    validateDonorboxSignature rangeHmac rangeHmac "x"
        (some ("sha256=" ++ bufferToHex (rangeHmac "k" "x"))) "k" = true ∧
    (∀ (i : Nat) (c : Char) (hi : i < (bufferToHex (rangeHmac "k" "x")).data.length),
      c ≠ (bufferToHex (rangeHmac "k" "x")).data.get ⟨i, hi⟩ →
      validateDonorboxSignature rangeHmac rangeHmac "x"
          (some ⟨"sha256=".data ++ (bufferToHex (rangeHmac "k" "x")).data.set i c⟩) "k"
        = false) :=
  C7_signature_accept_reject rangeHmac rangeHmac "x" "k" (by decide) (by decide)

/-- C8 counterexample: the header token "SHA1" (uppercase) is not the token
"sha1" and yet resolves to SHA-1, because the code lowercases the token
before comparing; and a bare header value without "=" is trimmed rather than
taken whole as the provided digest. -/
theorem C8_counterexample :
    (resolveSigParts "SHA1=abc").1 = "SHA-1" ∧ ("SHA1" : String) ≠ "sha1" ∧
    (resolveSigParts " abc ").2 = "abc" ∧ (" abc " : String) ≠ "abc" :=
  ⟨rfl, by decide, rfl, by decide⟩

/-- C8 (amended): a header value containing no "=" is treated as the
whole-but-trimmed digest with the algorithm resolved to SHA-256; in a header
with "=", the token before the first "=" resolves to SHA-1 exactly when its
lowercased form is "sha1", and to SHA-256 otherwise. -/
theorem C8_header_parsing (hv : String) :
    (hv.data.contains '=' = false →
      resolveSigParts hv = ("SHA-256", ⟨jsTrimData hv.data⟩)) ∧
    (hv.data.contains '=' = true →
      (resolveSigParts hv).1 =
        (if ((splitOnEq hv.data).headD []).map Char.toLower = "sha1".data
         then "SHA-1" else "SHA-256")) := by
  constructor
  · intro h
    rw [resolveSigParts, if_neg (show ¬(hv.data.contains '=' = true) from
      fun hcm => by rw [hcm] at h; exact Bool.noConfusion h)]
    rfl
  · intro h
    rw [resolveSigParts, if_pos (show hv.data.contains '=' = true from h)]

/-- C8 witness: the amended theorem applied at the header "sha1=x", with the
contains-"=" hypothesis discharged. -/
theorem C8_witness :
    (resolveSigParts "sha1=x").1 =
      (if ((splitOnEq ("sha1=x" : String).data).headD []).map Char.toLower = "sha1".data
       then "SHA-1" else "SHA-256") :=
  (C8_header_parsing "sha1=x").2 rfl
